import Mathlib

/-!
# Verification of the `comparison-fns` library

A shallow embedding of `src/src/index.ts` (composable three-way comparison
functions) together with proofs about the embedded definitions.

JavaScript numbers are modelled by `JSNum`: the special values `NaN`,
`-Infinity`, `+Infinity` plus finite values carried as integers (so that
finite arithmetic and ordering are exact).  A comparator `Comparer T` is a
function `T → T → Int`, returning `-1`, `0` or `1` exactly as the TypeScript
`CompareResult` does.
-/

/-- Model of a JavaScript `number`: NaN, the two infinities, or a finite value
(modelled exactly as an integer; every value the claims mention is integral). -/
inductive JSNum : Type where
  | nan : JSNum
  | negInf : JSNum
  | posInf : JSNum
  | fin : Int → JSNum
deriving DecidableEq

/-- JavaScript strict equality `===` on numbers: `NaN === NaN` is `false`,
the infinities are equal only to themselves, finite values compare by value. -/
def jsStrictEq : JSNum → JSNum → Bool
  | JSNum.negInf, JSNum.negInf => true
  | JSNum.posInf, JSNum.posInf => true
  | JSNum.fin x, JSNum.fin y => x == y
  | _, _ => false

instance : BEq JSNum := ⟨jsStrictEq⟩

/-- Embeds `Comparer<T>`: a three-way comparison function returning
`-1`, `0` or `1` (as an integer). -/
def Comparer (T : Type) : Type := T → T → Int

/-- Embeds the helper `sign` from `index.ts`. -/
def sign (value : Int) : Int :=
  if value > 0 then 1 else if value < 0 then -1 else 0

/-- Embeds `isNaN` as used on `JSNum` values. -/
def isNaN : JSNum → Bool
  | JSNum.nan => true
  | _ => false

/-- Embeds `isFinite` as used on `JSNum` values. -/
def isFinite : JSNum → Bool
  | JSNum.fin _ => true
  | _ => false

/-- Embeds `compareEqual`: considers all values equal. -/
def compareEqual {T : Type} (a b : T) : Int :=
  let _ := a
  let _ := b
  0

/-- Embeds `conditionFirstComparer`.  In the source the two sub-comparers
default to `compareEqual`; here they are always passed explicitly. -/
def conditionFirstComparer {T : Type} (condition : T → Bool)
    (trueComparer falseComparer : Comparer T) : Comparer T :=
  fun a b =>
    let aIsCondition := condition a
    let bIsCondition := condition b
    if aIsCondition && bIsCondition then trueComparer a b
    else if aIsCondition then -1
    else if bIsCondition then 1
    else falseComparer a b

/-- Embeds `conditionTypeFirstComparer`.  At runtime the type guard does not
change the values, and the `as any` casts mean both sub-comparers receive
values of the full input type, so the embedding takes comparers on `TIn`. -/
def conditionTypeFirstComparer {TIn : Type} (condition : TIn → Bool)
    (trueComparer falseComparer : Comparer TIn) : Comparer TIn :=
  fun a b =>
    let aIsCondition := condition a
    let bIsCondition := condition b
    if aIsCondition && bIsCondition then trueComparer a b
    else if aIsCondition then -1
    else if bIsCondition then 1
    else falseComparer a b

/-- Embeds `constFirstComparer`: `conditionFirstComparer((item) => item === value)`
with both sub-comparers left at their default `compareEqual`. -/
def constFirstComparer {T : Type} [BEq T] (value : T) : Comparer T :=
  conditionFirstComparer (fun item => item == value) compareEqual compareEqual

/-- Embeds `invertComparer`. -/
def invertComparer {T : Type} (comparer : Comparer T) : Comparer T :=
  fun a b => comparer b a

/-- Embeds `chainComparers` (the rest-parameter list becomes a `List`). -/
def chainComparers {T : Type} : List (Comparer T) → Comparer T
  | [], _, _ => 0
  | comparer :: rest, a, b =>
    let result := comparer a b
    if result ≠ 0 then result else chainComparers rest a b

/-- Embeds `compareFiniteNumber`: the sign of the difference when both values
are finite, `0` otherwise. -/
def compareFiniteNumber (a b : JSNum) : Int :=
  match a, b with
  | JSNum.fin x, JSNum.fin y => sign (x - y)
  | _, _ => 0

/-- Embeds `compareNanFirst = conditionFirstComparer(isNaN)`. -/
def compareNanFirst : Comparer JSNum :=
  conditionFirstComparer isNaN compareEqual compareEqual

/-- Embeds `comparePositiveInfinityFirst = constFirstComparer(Infinity)`. -/
def comparePositiveInfinityFirst : Comparer JSNum :=
  constFirstComparer JSNum.posInf

/-- Embeds `compareNegativeInfinityFirst = constFirstComparer(-Infinity)`. -/
def compareNegativeInfinityFirst : Comparer JSNum :=
  constFirstComparer JSNum.negInf

/-- Embeds `compareNumber`: the chain NaN-first, `-Infinity`-first,
inverted `+Infinity`-first, then finite comparison. -/
def compareNumber : Comparer JSNum :=
  chainComparers
    [compareNanFirst,
     compareNegativeInfinityFirst,
     invertComparer comparePositiveInfinityFirst,
     compareFiniteNumber]

/-- Embeds `compareBoolean` as implemented:
`a === b ? 0 : a ? 1 : -1`. -/
def compareBoolean (a b : Bool) : Int :=
  if a == b then 0 else if a then 1 else -1

/-- Lexicographic three-way comparison of character lists by code point. -/
def lexCompareChars : List Char → List Char → Int
  | [], [] => 0
  | [], _ :: _ => -1
  | _ :: _, [] => 1
  | c :: cs, d :: ds =>
    if c.toNat < d.toNat then -1
    else if d.toNat < c.toNat then 1
    else lexCompareChars cs ds

/-- Modelled from the spec: `compareString` delegates to the host environment's
locale-comparison primitive (`String.prototype.localeCompare`), which is not part
of this repository.  It is modelled as the total lexicographic order on strings
by code point, which agrees with any locale comparison on equal strings. -/
def localeCompare (a b : String) : Int :=
  lexCompareChars a.toList b.toList

/-- Embeds `compareString`: the sign of the host locale comparison. -/
def compareString (a b : String) : Int :=
  sign (localeCompare a b)

/-- Embeds `collatorComparer`: the host collator is an abstract parameter. -/
def collatorComparer (collator : String → String → Int) : Comparer String :=
  fun a b => sign (collator a b)

/-- Embeds `localeComparer`: comparison under the host locale primitive for a
given locale, the primitive being an abstract parameter. -/
def localeComparer (localePrimitive : String → String → Int) : Comparer String :=
  fun a b => sign (localePrimitive a b)

/-- Embeds `mapComparer`. -/
def mapComparer {TIn TOut : Type} (comparer : Comparer TOut)
    (mapper : TIn → TOut) : Comparer TIn :=
  fun a b => comparer (mapper a) (mapper b)

/-- Model of a JavaScript `Date`: a wrapper around its numeric timestamp
(`getTime`). -/
structure JSDate : Type where
  time : JSNum

/-- Embeds `compareDate = mapComparer(compareFiniteNumber, (date) => date.getTime())`. -/
def compareDate : Comparer JSDate :=
  mapComparer compareFiniteNumber JSDate.time

/-- Embeds the reverse lookup `new Map(ordering.map((item, index) => [item, index]))`
inside `orderComparer`.  The pairs are inserted left to right and a later insert
for the same key overwrites an earlier one, exactly as `Map` construction does. -/
def orderLookup {T : Type} [DecidableEq T] (ordering : List T) : T → Option Nat :=
  ordering.enum.foldl (fun acc p => fun x => if x = p.2 then some p.1 else acc x)
    (fun _ => none)

/-- Embeds the inner `indexOf` of `orderComparer`: the looked-up index when the
item is a key of the map, `ordering.length` otherwise. -/
def indexOf {T : Type} [DecidableEq T] (ordering : List T) (item : T) : Nat :=
  match orderLookup ordering item with
  | some i => i
  | none => ordering.length

/-- Embeds `orderComparer`. -/
def orderComparer {T : Type} [DecidableEq T] (ordering : List T) : Comparer T :=
  fun a b => sign ((indexOf ordering a : Int) - (indexOf ordering b : Int))

/-- Embeds `groupComparer`.  The comparer table `Record<TKey, Comparer<TValue>>`
is modelled as a total function (the claims only concern keys present in the
table), which also makes the `?? 0` guard the identity. -/
def groupComparer {TKey TValue : Type} (compareFns : TKey → Comparer TValue)
    (keyFn : TValue → TKey) (keyCompareFn : Comparer TKey) : Comparer TValue :=
  fun a b =>
    let keyA := keyFn a
    let keyB := keyFn b
    let r := keyCompareFn keyA keyB
    if r ≠ 0 then r else compareFns keyA a b

/-- Embeds `arrayComparer`.  The index loop over the common prefix becomes
structural recursion; once one array is exhausted the loop stops and the
lengths are compared with `compareNumber`, whose result equals
`compareNumber` of the original lengths because both lists shrink in step. -/
def arrayComparer {T : Type} (itemComparer : Comparer T) : Comparer (List T)
  | x :: xs, y :: ys =>
    let result := itemComparer x y
    if result ≠ 0 then result else arrayComparer itemComparer xs ys
  | a, b => compareNumber (JSNum.fin a.length) (JSNum.fin b.length)

/-- Model of the TypeScript union `T | null | undefined`: `null` and `undefined`
stay distinguishable, as the spec leaves them. -/
inductive Nullable (T : Type) : Type where
  | null : Nullable T
  | undef : Nullable T
  | val : T → Nullable T
deriving DecidableEq

/-- Embeds `isNullable`: `value === null || value === undefined`. -/
def isNullable {T : Type} : Nullable T → Bool
  | Nullable.null => true
  | Nullable.undef => true
  | Nullable.val _ => false

/-- Embeds `isNonNullable`: `value !== null && value !== undefined`. -/
def isNonNullable {T : Type} : Nullable T → Bool
  | Nullable.null => false
  | Nullable.undef => false
  | Nullable.val _ => true

/-- Embeds `nullableFirstComparer`.  The `as any` cast in
`conditionTypeFirstComparer` means the wrapped comparer is handed the
unnarrowed values, so it is taken on `Nullable T` here. -/
def nullableFirstComparer {T : Type} (comparer : Comparer (Nullable T)) :
    Comparer (Nullable T) :=
  conditionTypeFirstComparer isNullable compareEqual comparer

/-- Embeds `nullableLastComparer`. -/
def nullableLastComparer {T : Type} (comparer : Comparer (Nullable T)) :
    Comparer (Nullable T) :=
  conditionTypeFirstComparer isNonNullable comparer compareEqual

/-- Embeds `compareNullableFirst = nullableFirstComparer(compareEqual)`. -/
def compareNullableFirst {T : Type} : Comparer (Nullable T) :=
  nullableFirstComparer compareEqual

/-- Model of the TypeScript union `number | string`. -/
inductive NumOrStr : Type where
  | num : JSNum → NumOrStr
  | str : String → NumOrStr
deriving DecidableEq

/-- Embeds `isNumber`: `typeof value === "number"`. -/
def isNumber : NumOrStr → Bool
  | NumOrStr.num _ => true
  | NumOrStr.str _ => false

/-- Lifts a comparer on numbers to the `number | string` union; the non-number
branch is unreachable behind the `isNumber` guard. -/
def liftNumComparer (c : Comparer JSNum) : Comparer NumOrStr :=
  fun a b =>
    match a, b with
    | NumOrStr.num x, NumOrStr.num y => c x y
    | _, _ => 0

/-- Lifts a comparer on strings to the `number | string` union; the non-string
branch is unreachable behind the negated `isNumber` guard. -/
def liftStrComparer (c : Comparer String) : Comparer NumOrStr :=
  fun a b =>
    match a, b with
    | NumOrStr.str x, NumOrStr.str y => c x y
    | _, _ => 0

/-- Embeds `compareNumberOrString =
conditionTypeFirstComparer(isNumber, compareNumber, compareString)`. -/
def compareNumberOrString : Comparer NumOrStr :=
  conditionTypeFirstComparer isNumber
    (liftNumComparer compareNumber) (liftStrComparer compareString)

/-- Embeds `parseInt(run, 10)` on a run of decimal digit characters. -/
def parseIntDigits (run : List Char) : Int :=
  run.foldl (fun n c => 10 * n + ((c.toNat : Int) - 48)) 0

/-- Groups a character list into maximal runs of like-classified characters
(`true` = digit run), the semantics of `matchAll(/([0-9]+)|([^0-9]+)/g)`. -/
def digitRuns (chars : List Char) : List (Bool × List Char) :=
  chars.foldr
    (fun c acc =>
      match acc with
      | (d, run) :: rest =>
        if c.isDigit == d then (d, c :: run) :: rest
        else (c.isDigit, [c]) :: (d, run) :: rest
      | [] => [(c.isDigit, [c])])
    []

/-- Embeds the tokenizing mapper of `compareStringNatural`: each digit run
becomes its `parseInt` value, each non-digit run stays a string. -/
def tokenizeNatural (value : String) : List NumOrStr :=
  (digitRuns value.toList).map
    (fun r =>
      if r.1 then NumOrStr.num (JSNum.fin (parseIntDigits r.2))
      else NumOrStr.str (String.mk r.2))

/-- Embeds `compareStringNatural =
mapComparer(arrayComparer(compareNumberOrString), tokenize)`. -/
def compareStringNatural : Comparer String :=
  mapComparer (arrayComparer compareNumberOrString) tokenizeNatural

/-- Stable insertion used by `stableSort`: a new element is placed before the
first element it compares strictly below, hence after all elements it ties
with that were originally earlier. -/
def sortInsert {T : Type} (cmp : Comparer T) (x : T) : List T → List T
  | [] => [x]
  | y :: ys => if cmp x y < 0 then x :: y :: ys else y :: sortInsert cmp x ys

/-- A stable sort (insertion sort), the explicit precondition the spec places
on the host sort routine consuming these comparators. -/
def stableSort {T : Type} (cmp : Comparer T) : List T → List T
  | [] => []
  | x :: xs => sortInsert cmp x (stableSort cmp xs)

/-- A comparator is anti-symmetric when swapping its arguments negates it. -/
def CompAntisym {T : Type} (c : Comparer T) : Prop :=
  ∀ a b, c a b = -(c b a)

/-- A comparator is reflexive when it returns 0 on equal arguments. -/
def CompRefl {T : Type} (c : Comparer T) : Prop :=
  ∀ a, c a a = 0

theorem sign_sub_antisym (x y : Int) : sign (x - y) = -(sign (y - x)) := by
  unfold sign
  split_ifs <;> omega

theorem sign_sub_self (x : Int) : sign (x - x) = 0 := by
  unfold sign
  split_ifs <;> omega

theorem compareEqual_antisym {T : Type} : CompAntisym (compareEqual (T := T)) := by
  intro a b
  rfl

theorem compareEqual_refl {T : Type} : CompRefl (compareEqual (T := T)) := by
  intro a
  rfl

theorem conditionFirstComparer_eq {T : Type} (p : T → Bool)
    (t f : Comparer T) (a b : T) :
    conditionFirstComparer p t f a b =
      if p a && p b then t a b
      else if p a then -1
      else if p b then 1
      else f a b := rfl

theorem conditionTypeFirstComparer_eq {T : Type} (p : T → Bool)
    (t f : Comparer T) (a b : T) :
    conditionTypeFirstComparer p t f a b =
      if p a && p b then t a b
      else if p a then -1
      else if p b then 1
      else f a b := rfl

theorem conditionFirstComparer_antisym {T : Type} (p : T → Bool)
    {t f : Comparer T} (ht : CompAntisym t) (hf : CompAntisym f) :
    CompAntisym (conditionFirstComparer p t f) := by
  intro a b
  rw [conditionFirstComparer_eq, conditionFirstComparer_eq]
  cases hpa : p a <;> cases hpb : p b <;> simp [ht a b, hf a b]

theorem conditionTypeFirstComparer_antisym {T : Type} (p : T → Bool)
    {t f : Comparer T} (ht : CompAntisym t) (hf : CompAntisym f) :
    CompAntisym (conditionTypeFirstComparer p t f) := by
  intro a b
  rw [conditionTypeFirstComparer_eq, conditionTypeFirstComparer_eq]
  cases hpa : p a <;> cases hpb : p b <;> simp [ht a b, hf a b]

theorem conditionFirstComparer_refl {T : Type} (p : T → Bool)
    {t f : Comparer T} (ht : CompRefl t) (hf : CompRefl f) :
    CompRefl (conditionFirstComparer p t f) := by
  intro a
  rw [conditionFirstComparer_eq]
  cases hpa : p a <;> simp [ht a, hf a]

theorem conditionTypeFirstComparer_refl {T : Type} (p : T → Bool)
    {t f : Comparer T} (ht : CompRefl t) (hf : CompRefl f) :
    CompRefl (conditionTypeFirstComparer p t f) := by
  intro a
  rw [conditionTypeFirstComparer_eq]
  cases hpa : p a <;> simp [ht a, hf a]

theorem constFirstComparer_antisym {T : Type} [BEq T] (v : T) :
    CompAntisym (constFirstComparer v) :=
  conditionFirstComparer_antisym _ compareEqual_antisym compareEqual_antisym

theorem constFirstComparer_refl {T : Type} [BEq T] (v : T) :
    CompRefl (constFirstComparer v) :=
  conditionFirstComparer_refl _ compareEqual_refl compareEqual_refl

theorem invertComparer_antisym {T : Type} {c : Comparer T}
    (hc : CompAntisym c) : CompAntisym (invertComparer c) := by
  intro a b
  exact hc b a

theorem invertComparer_refl {T : Type} {c : Comparer T}
    (hc : CompRefl c) : CompRefl (invertComparer c) := by
  intro a
  exact hc a

theorem chainComparers_cons {T : Type} (c : Comparer T)
    (rest : List (Comparer T)) (a b : T) :
    chainComparers (c :: rest) a b =
      if c a b ≠ 0 then c a b else chainComparers rest a b := rfl

theorem chainComparers_antisym {T : Type} {l : List (Comparer T)}
    (h : ∀ c ∈ l, CompAntisym c) : CompAntisym (chainComparers l) := by
  induction l with
  | nil => intro a b; rfl
  | cons c rest ih =>
    intro a b
    have hc : c b a = -(c a b) := by rw [h c (List.mem_cons_self c rest) a b]; ring
    rw [chainComparers_cons, chainComparers_cons, hc]
    by_cases h0 : c a b = 0
    · simp [h0, ih (fun d hd => h d (List.mem_cons_of_mem c hd)) a b]
    · simp [h0]

theorem chainComparers_refl {T : Type} {l : List (Comparer T)}
    (h : ∀ c ∈ l, CompRefl c) : CompRefl (chainComparers l) := by
  induction l with
  | nil => intro a; rfl
  | cons c rest ih =>
    intro a
    rw [chainComparers_cons, h c (List.mem_cons_self c rest) a]
    simp [ih (fun d hd => h d (List.mem_cons_of_mem c hd)) a]

theorem sign_eval_zero : sign 0 = 0 := rfl

theorem compareFiniteNumber_antisym : CompAntisym compareFiniteNumber := by
  intro a b
  cases a <;> cases b <;> first | rfl | exact sign_sub_antisym _ _

theorem compareFiniteNumber_refl : CompRefl compareFiniteNumber := by
  intro a
  cases a <;> first | rfl | exact sign_sub_self _

theorem compareNumber_antisym : CompAntisym compareNumber := by
  apply chainComparers_antisym
  intro c hc
  simp only [List.mem_cons, List.not_mem_nil, or_false] at hc
  rcases hc with rfl | rfl | rfl | rfl
  · exact conditionFirstComparer_antisym _ compareEqual_antisym compareEqual_antisym
  · exact constFirstComparer_antisym _
  · exact invertComparer_antisym (constFirstComparer_antisym _)
  · exact compareFiniteNumber_antisym

theorem compareNumber_refl : CompRefl compareNumber := by
  apply chainComparers_refl
  intro c hc
  simp only [List.mem_cons, List.not_mem_nil, or_false] at hc
  rcases hc with rfl | rfl | rfl | rfl
  · exact conditionFirstComparer_refl _ compareEqual_refl compareEqual_refl
  · exact constFirstComparer_refl _
  · exact invertComparer_refl (constFirstComparer_refl _)
  · exact compareFiniteNumber_refl

theorem compareNumber_fin (x y : Int) :
    compareNumber (JSNum.fin x) (JSNum.fin y) = sign (x - y) := by
  show (if sign (x - y) ≠ 0 then sign (x - y) else 0) = sign (x - y)
  by_cases h : sign (x - y) = 0 <;> simp [h]

example : compareNumber (JSNum.fin 1) (JSNum.fin 2) = -1 := by decide
example : compareNumber JSNum.nan JSNum.negInf = -1 := by decide
example : compareNumber JSNum.posInf JSNum.nan = 1 := by decide
example : compareNumber JSNum.posInf (JSNum.fin 5) = 1 := by decide
example : compareNumber JSNum.nan JSNum.nan = 0 := by decide
example : compareBoolean true false = 1 := by decide
example :
    stableSort compareNumber
      [JSNum.fin 1, JSNum.nan, JSNum.negInf, JSNum.fin 0, JSNum.posInf] =
      [JSNum.nan, JSNum.negInf, JSNum.fin 0, JSNum.fin 1, JSNum.posInf] := by
  decide
example : tokenizeNatural "a10" =
    [NumOrStr.str "a", NumOrStr.num (JSNum.fin 10)] := by decide
example : stableSort compareStringNatural ["a10", "a2", "a1"] =
    ["a1", "a2", "a10"] := by decide
example : orderComparer ["a", "b", "a"] "a" "b" = 1 := by decide
example : stableSort (arrayComparer compareNumber)
      [[JSNum.fin 2], [JSNum.fin 1, JSNum.fin 2]] =
      [[JSNum.fin 1, JSNum.fin 2], [JSNum.fin 2]] := by decide

/-- C1: `conditionFirstComparer(p, t, f)` applied to `(a, b)` returns `t(a, b)`
when `p(a)` and `p(b)` both hold, `f(a, b)` when neither holds, `-1` when only
`p(a)` holds and `1` when only `p(b)` holds; the same partitioning holds for
`conditionTypeFirstComparer` with a type guard in place of the predicate. -/
theorem claim_C1_condition_first_partition {T : Type} (p : T → Bool)
    (t f : Comparer T) (a b : T) :
    (p a = true → p b = true → conditionFirstComparer p t f a b = t a b) ∧
    (p a = false → p b = false → conditionFirstComparer p t f a b = f a b) ∧
    (p a = true → p b = false → conditionFirstComparer p t f a b = -1) ∧
    (p a = false → p b = true → conditionFirstComparer p t f a b = 1) ∧
    (p a = true → p b = true → conditionTypeFirstComparer p t f a b = t a b) ∧
    (p a = false → p b = false → conditionTypeFirstComparer p t f a b = f a b) ∧
    (p a = true → p b = false → conditionTypeFirstComparer p t f a b = -1) ∧
    (p a = false → p b = true → conditionTypeFirstComparer p t f a b = 1) := by
  refine ⟨?_, ?_, ?_, ?_, ?_, ?_, ?_, ?_⟩ <;> intro ha hb <;>
    simp [conditionFirstComparer_eq, conditionTypeFirstComparer_eq, ha, hb]

theorem claim_C1_witness :
    conditionFirstComparer isNaN compareEqual compareFiniteNumber
      JSNum.nan (JSNum.fin 3) = -1 ∧
    conditionTypeFirstComparer isNumber (liftNumComparer compareNumber)
      (liftStrComparer compareString)
      (NumOrStr.num (JSNum.fin 1)) (NumOrStr.str "a") = -1 :=
  ⟨(claim_C1_condition_first_partition isNaN compareEqual compareFiniteNumber
      JSNum.nan (JSNum.fin 3)).2.2.1 (by decide) (by decide),
   (claim_C1_condition_first_partition isNumber (liftNumComparer compareNumber)
      (liftStrComparer compareString)
      (NumOrStr.num (JSNum.fin 1)) (NumOrStr.str "a")).2.2.2.2.2.2.1
      (by decide) (by decide)⟩

/-- C2: `compareNumber` establishes the global order NaN, then negative
infinity, then finite values ascending, then positive infinity, with each
special class mutually equal; and the stable sort of
`[1, NaN, -Infinity, 0, Infinity]` is `[NaN, -Infinity, 0, 1, Infinity]`. -/
theorem claim_C2_compareNumber_global_order :
    (∀ x : JSNum, x ≠ JSNum.nan →
      compareNumber JSNum.nan x = -1 ∧ compareNumber x JSNum.nan = 1) ∧
    (∀ x : JSNum, x ≠ JSNum.nan → x ≠ JSNum.negInf →
      compareNumber JSNum.negInf x = -1 ∧ compareNumber x JSNum.negInf = 1) ∧
    (∀ x : JSNum, x ≠ JSNum.posInf →
      compareNumber x JSNum.posInf = -1 ∧ compareNumber JSNum.posInf x = 1) ∧
    (∀ x y : Int, compareNumber (JSNum.fin x) (JSNum.fin y) = sign (x - y)) ∧
    compareNumber JSNum.nan JSNum.nan = 0 ∧
    compareNumber JSNum.negInf JSNum.negInf = 0 ∧
    compareNumber JSNum.posInf JSNum.posInf = 0 ∧
    stableSort compareNumber
        [JSNum.fin 1, JSNum.nan, JSNum.negInf, JSNum.fin 0, JSNum.posInf] =
      [JSNum.nan, JSNum.negInf, JSNum.fin 0, JSNum.fin 1, JSNum.posInf] := by
  refine ⟨?_, ?_, ?_, compareNumber_fin, by decide, by decide, by decide, by decide⟩
  · intro x hx
    cases x
    · exact absurd rfl hx
    · exact ⟨rfl, rfl⟩
    · exact ⟨rfl, rfl⟩
    · exact ⟨rfl, rfl⟩
  · intro x hx hx2
    cases x
    · exact absurd rfl hx
    · exact absurd rfl hx2
    · exact ⟨rfl, rfl⟩
    · exact ⟨rfl, rfl⟩
  · intro x hx
    cases x
    · exact ⟨rfl, rfl⟩
    · exact ⟨rfl, rfl⟩
    · exact absurd rfl hx
    · exact ⟨rfl, rfl⟩

theorem claim_C2_witness :
    compareNumber JSNum.nan (JSNum.fin 5) = -1 ∧
    compareNumber (JSNum.fin 5) JSNum.negInf = 1 ∧
    compareNumber (JSNum.fin 5) JSNum.posInf = -1 :=
  ⟨(claim_C2_compareNumber_global_order.1 (JSNum.fin 5) (by decide)).1,
   (claim_C2_compareNumber_global_order.2.1 (JSNum.fin 5)
      (by decide) (by decide)).2,
   (claim_C2_compareNumber_global_order.2.2.1 (JSNum.fin 5) (by decide)).1⟩

/-- C5: the claim says `compareBoolean` orders true before false with
`compareBoolean(true, false) = -1`; the implementation
(`a === b ? 0 : a ? 1 : -1`) instead returns `1` on `(true, false)` and `-1`
on `(false, true)`, ordering false before true, against its own documentation
("True is ordered before false") and the README example.  This theorem records
what the code computes at those inputs. -/
theorem claim_C5_compareBoolean_eval :
    compareBoolean true false = 1 ∧ compareBoolean false true = -1 ∧
    compareBoolean true true = 0 ∧ compareBoolean false false = 0 := by
  decide

/-- C9: `nullableFirstComparer(c)` and `nullableLastComparer(c)` only invoke
the wrapped comparer on pairs of non-null, non-undefined values: the result is
the same for any two wrapped comparers that agree on such pairs, so the branch
passing a null or undefined value into the wrapped comparer is unreachable. -/
theorem claim_C9_nullable_guard_unreachable {T : Type}
    (c₁ c₂ : Comparer (Nullable T))
    (h : ∀ x y : T,
      c₁ (Nullable.val x) (Nullable.val y) = c₂ (Nullable.val x) (Nullable.val y))
    (a b : Nullable T) :
    nullableFirstComparer c₁ a b = nullableFirstComparer c₂ a b ∧
    nullableLastComparer c₁ a b = nullableLastComparer c₂ a b := by
  cases a <;> cases b <;>
    simp [nullableFirstComparer, nullableLastComparer,
      conditionTypeFirstComparer_eq, isNullable, isNonNullable, h]

theorem claim_C9_witness :
    nullableFirstComparer (T := Bool) (fun _ _ => 0) Nullable.null
        (Nullable.val true) =
      nullableFirstComparer
        (fun a b => if isNullable a || isNullable b then 7 else 0)
        Nullable.null (Nullable.val true) ∧
    nullableLastComparer (T := Bool) (fun _ _ => 0) Nullable.null
        (Nullable.val true) =
      nullableLastComparer
        (fun a b => if isNullable a || isNullable b then 7 else 0)
        Nullable.null (Nullable.val true) :=
  claim_C9_nullable_guard_unreachable (fun _ _ => 0)
    (fun a b => if isNullable a || isNullable b then 7 else 0)
    (by decide) Nullable.null (Nullable.val true)

theorem arrayComparer_cons {T : Type} (c : Comparer T) (x y : T)
    (xs ys : List T) :
    arrayComparer c (x :: xs) (y :: ys) =
      if c x y ≠ 0 then c x y else arrayComparer c xs ys := rfl

theorem arrayComparer_all_zero {T : Type} (c : Comparer T) :
    ∀ a b : List T, (∀ p ∈ a.zip b, c p.1 p.2 = 0) →
      arrayComparer c a b = sign ((a.length : Int) - (b.length : Int)) := by
  intro a
  induction a with
  | nil => intro b _; exact compareNumber_fin _ _
  | cons x xs ih =>
    intro b h
    cases b with
    | nil => exact compareNumber_fin _ _
    | cons y ys =>
      have hxy : c x y = 0 := h (x, y) (by simp)
      rw [arrayComparer_cons, hxy, if_neg (fun hh => hh rfl),
        ih ys (fun p hp => h p (by simp [hp]))]
      congr 1
      simp only [List.length_cons]
      push_cast
      ring

theorem arrayComparer_first_diff {T : Type} (c : Comparer T) :
    ∀ (a b : List T) (pre : List (T × T)) (x y : T) (rest : List (T × T)),
      a.zip b = pre ++ (x, y) :: rest →
      (∀ p ∈ pre, c p.1 p.2 = 0) → c x y ≠ 0 →
      arrayComparer c a b = c x y := by
  intro a
  induction a with
  | nil =>
    intro b pre x y rest hz _ _
    rw [List.zip_nil_left] at hz
    exact absurd hz.symm (by simp)
  | cons hx xs ih =>
    intro b pre x y rest hz hpre hxy
    cases b with
    | nil =>
      rw [List.zip_nil_right] at hz
      exact absurd hz.symm (by simp)
    | cons hy ys =>
      rw [List.zip_cons_cons] at hz
      cases pre with
      | nil =>
        rw [List.nil_append] at hz
        obtain ⟨h1, h2⟩ := List.cons_eq_cons.mp hz
        obtain ⟨ha, hb⟩ := Prod.mk.injEq .. ▸ h1
        subst ha
        subst hb
        rw [arrayComparer_cons, if_pos hxy]
      | cons p pre2 =>
        rw [List.cons_append] at hz
        obtain ⟨h1, h2⟩ := List.cons_eq_cons.mp hz
        have h0 : c hx hy = 0 := by
          have := hpre p (List.mem_cons_self p pre2)
          rw [← h1] at this
          exact this
        rw [arrayComparer_cons, h0, if_neg (fun hh => hh rfl)]
        exact ih ys pre2 x y rest h2
          (fun q hq => hpre q (List.mem_cons_of_mem p hq)) hxy

/-- C3: `arrayComparer(c)` returns `c`'s result at the first index of the
common prefix where `c` is non-zero; when `c` returns `0` at every overlapping
index the result is the sign of the length difference (the shorter array
first); equal-length element-wise-equal arrays compare equal. -/
theorem claim_C3_arrayComparer_lex {T : Type} (c : Comparer T) (a b : List T) :
    (∀ (pre : List (T × T)) (x y : T) (rest : List (T × T)),
      a.zip b = pre ++ (x, y) :: rest →
      (∀ p ∈ pre, c p.1 p.2 = 0) → c x y ≠ 0 →
      arrayComparer c a b = c x y) ∧
    ((∀ p ∈ a.zip b, c p.1 p.2 = 0) →
      arrayComparer c a b = sign ((a.length : Int) - (b.length : Int))) ∧
    (a.length = b.length → (∀ p ∈ a.zip b, c p.1 p.2 = 0) →
      arrayComparer c a b = 0) := by
  refine ⟨fun pre x y rest hz hpre hxy =>
    arrayComparer_first_diff c a b pre x y rest hz hpre hxy,
    arrayComparer_all_zero c a b, fun hlen h => ?_⟩
  rw [arrayComparer_all_zero c a b h, hlen, sub_self, sign_eval_zero]

theorem claim_C3_witness :
    arrayComparer compareNumber [JSNum.fin 2] [JSNum.fin 1, JSNum.fin 2] =
      compareNumber (JSNum.fin 2) (JSNum.fin 1) ∧
    arrayComparer compareNumber [JSNum.fin 1] [JSNum.fin 1, JSNum.fin 9] =
      sign ((1 : Int) - 2) ∧
    arrayComparer compareNumber [JSNum.fin 1, JSNum.fin 2]
      [JSNum.fin 1, JSNum.fin 2] = 0 :=
  ⟨(claim_C3_arrayComparer_lex compareNumber [JSNum.fin 2]
      [JSNum.fin 1, JSNum.fin 2]).1 [] (JSNum.fin 2) (JSNum.fin 1) []
      (by decide) (by simp) (by decide),
   (claim_C3_arrayComparer_lex compareNumber [JSNum.fin 1]
      [JSNum.fin 1, JSNum.fin 9]).2.1 (by intro p hp; fin_cases hp; decide),
   (claim_C3_arrayComparer_lex compareNumber [JSNum.fin 1, JSNum.fin 2]
      [JSNum.fin 1, JSNum.fin 2]).2.2 (by decide)
      (by intro p hp; fin_cases hp <;> decide)⟩

theorem orderLookup_concat {T : Type} [DecidableEq T] (s : List T) (t x : T) :
    orderLookup (s ++ [t]) x =
      if x = t then some s.length else orderLookup s x := by
  unfold orderLookup
  rw [List.enum_append, List.foldl_append]
  rfl

theorem orderLookup_not_mem {T : Type} [DecidableEq T] (s : List T) (x : T)
    (h : x ∉ s) : orderLookup s x = none := by
  induction s using List.reverseRecOn with
  | nil => rfl
  | append_singleton s t ih =>
    simp only [List.mem_append, List.mem_singleton] at h
    push_neg at h
    rw [orderLookup_concat, if_neg h.2, ih h.1]

theorem orderLookup_last {T : Type} [DecidableEq T] :
    ∀ (t s : List T) (a : T), a ∉ t →
      orderLookup (s ++ a :: t) a = some s.length := by
  intro t
  induction t using List.reverseRecOn with
  | nil =>
    intro s a _
    rw [show s ++ a :: ([] : List T) = s ++ [a] from rfl, orderLookup_concat,
      if_pos rfl]
  | append_singleton t x ih =>
    intro s a h
    simp only [List.mem_append, List.mem_singleton] at h
    push_neg at h
    rw [show s ++ a :: (t ++ [x]) = (s ++ a :: t) ++ [x] by simp,
      orderLookup_concat, if_neg h.2, ih s a h.1]

theorem indexOf_not_mem {T : Type} [DecidableEq T] (s : List T) (a : T)
    (h : a ∉ s) : indexOf s a = s.length := by
  unfold indexOf
  rw [orderLookup_not_mem s a h]

theorem indexOf_last_occurrence {T : Type} [DecidableEq T] (s t : List T)
    (a : T) (h : a ∉ t) : indexOf (s ++ a :: t) a = s.length := by
  unfold indexOf
  rw [orderLookup_last t s a h]

/-- The ordering comparator as the spec words it, with the index of the FIRST
occurrence winning for duplicate entries (values absent from the ordering get
index `length`). -/
def specFirstIndex {T : Type} [DecidableEq T] : List T → T → Nat
  | [], _ => 0
  | x :: xs, a => if a = x then 0 else specFirstIndex xs a + 1

/-- The spec's version of `orderComparer`, built on first-occurrence indices. -/
def specOrderComparer {T : Type} [DecidableEq T] (ordering : List T) :
    Comparer T :=
  fun a b =>
    sign ((specFirstIndex ordering a : Int) - (specFirstIndex ordering b : Int))

/-- C4 counterexample: with the duplicate ordering `["a", "b", "a"]` the claim
(first occurrence wins) predicts that `"a"` gets index 0 and sorts before
`"b"`, but the code's `Map`-built lookup lets the last occurrence win, so
`"a"` gets index 2 and sorts after `"b"`. -/
theorem claim_C4_counterexample :
    specFirstIndex ["a", "b", "a"] "a" = 0 ∧
    specOrderComparer ["a", "b", "a"] "a" "b" = -1 ∧
    indexOf ["a", "b", "a"] "a" = 2 ∧
    orderComparer ["a", "b", "a"] "a" "b" = 1 := by
  decide

/-- C4 amended: `orderComparer(s)` assigns each value its index in `s` with
the LAST occurrence winning for duplicate entries, assigns every value absent
from `s` the index `s.length` (so absent values compare equal to each other
and after every listed value), and returns the sign of the index difference
of its two arguments. -/
theorem claim_C4_orderComparer_amended {T : Type} [DecidableEq T]
    (s t : List T) (a b : T) :
    (a ∉ s → indexOf s a = s.length) ∧
    (a ∉ t → indexOf (s ++ a :: t) a = s.length) ∧
    orderComparer s a b =
      sign ((indexOf s a : Int) - (indexOf s b : Int)) :=
  ⟨indexOf_not_mem s a, indexOf_last_occurrence s t a, rfl⟩

theorem claim_C4_witness :
    indexOf ["a", "b"] "c" = 2 ∧
    indexOf (["x", "y"] ++ "a" :: ["z"]) "a" = 2 ∧
    orderComparer ["a", "b"] "a" "b" =
      sign ((indexOf ["a", "b"] "a" : Int) - (indexOf ["a", "b"] "b" : Int)) :=
  ⟨(claim_C4_orderComparer_amended ["a", "b"] [] "c" "c").1 (by decide),
   (claim_C4_orderComparer_amended ["x", "y"] ["z"] "a" "a").2.1 (by decide),
   (claim_C4_orderComparer_amended ["a", "b"] [] "a" "b").2.2⟩

theorem groupComparer_eq {TKey TValue : Type} (compareFns : TKey → Comparer TValue)
    (keyFn : TValue → TKey) (keyCompareFn : Comparer TKey) (a b : TValue) :
    groupComparer compareFns keyFn keyCompareFn a b =
      if keyCompareFn (keyFn a) (keyFn b) ≠ 0 then keyCompareFn (keyFn a) (keyFn b)
      else compareFns (keyFn a) a b := rfl

/-- C6 counterexample: with identity keys, the constant-zero key comparer and
a table of constant-one comparers, the two keys `true` and `false` differ, the
key comparer returns `0` on them, yet `groupComparer` returns `1`, not the key
comparer's result, refuting "if the two keys differ it returns the key
comparer's result on the keys". -/
theorem claim_C6_counterexample :
    (fun v : Bool => v) true ≠ (fun v : Bool => v) false ∧
    (fun _ _ : Bool => (0 : Int)) true false = 0 ∧
    groupComparer (fun _ : Bool => fun _ _ : Bool => (1 : Int)) (fun v => v)
      (fun _ _ => 0) true false = 1 := by
  decide

/-- C6 amended: `groupComparer` computes the two keys and returns the key
comparer's result on them whenever that result is non-zero; otherwise (in
particular whenever the two keys are equal, for any reflexive key comparer)
it returns the table entry for the first argument's key applied to `(a, b)`. -/
theorem claim_C6_groupComparer_amended {TKey TValue : Type}
    (compareFns : TKey → Comparer TValue) (keyFn : TValue → TKey)
    (keyCompareFn : Comparer TKey) (a b : TValue) :
    (keyCompareFn (keyFn a) (keyFn b) ≠ 0 →
      groupComparer compareFns keyFn keyCompareFn a b =
        keyCompareFn (keyFn a) (keyFn b)) ∧
    (keyCompareFn (keyFn a) (keyFn b) = 0 →
      groupComparer compareFns keyFn keyCompareFn a b =
        compareFns (keyFn a) a b) ∧
    (keyFn a = keyFn b → CompRefl keyCompareFn →
      groupComparer compareFns keyFn keyCompareFn a b =
        compareFns (keyFn a) a b) := by
  refine ⟨fun h => ?_, fun h => ?_, fun hk hrefl => ?_⟩
  · rw [groupComparer_eq, if_pos h]
  · rw [groupComparer_eq, h, if_neg (fun hh => hh rfl)]
  · have h0 : keyCompareFn (keyFn a) (keyFn b) = 0 := by rw [hk]; exact hrefl _
    rw [groupComparer_eq, h0, if_neg (fun hh => hh rfl)]

theorem claim_C6_witness :
    groupComparer (fun _ : Bool => compareBoolean) (fun v : Bool => v)
      compareBoolean true false = compareBoolean true false ∧
    groupComparer (fun _ : Bool => compareBoolean) (fun v : Bool => v)
      compareBoolean true true = compareBoolean true true :=
  ⟨(claim_C6_groupComparer_amended (fun _ => compareBoolean) (fun v => v)
      compareBoolean true false).1 (by decide),
   (claim_C6_groupComparer_amended (fun _ => compareBoolean) (fun v => v)
      compareBoolean true true).2.1 (by decide)⟩

theorem sign_neg_eq (x : Int) : sign (-x) = -(sign x) := by
  unfold sign
  split_ifs <;> omega

theorem lexCompareChars_antisym :
    ∀ l1 l2 : List Char, lexCompareChars l1 l2 = -(lexCompareChars l2 l1) := by
  intro l1
  induction l1 with
  | nil => intro l2; cases l2 <;> rfl
  | cons c cs ih =>
    intro l2
    cases l2 with
    | nil => rfl
    | cons d ds =>
      show (if c.toNat < d.toNat then (-1 : Int)
          else if d.toNat < c.toNat then 1 else lexCompareChars cs ds) =
        -(if d.toNat < c.toNat then (-1 : Int)
          else if c.toNat < d.toNat then 1 else lexCompareChars ds cs)
      rcases Nat.lt_trichotomy c.toNat d.toNat with h | h | h
      · rw [if_pos h, if_neg (Nat.lt_asymm h), if_pos h]
      · rw [if_neg (by omega), if_neg (by omega), if_neg (by omega),
          if_neg (by omega), ih ds]
      · rw [if_neg (Nat.lt_asymm h), if_pos h, if_pos h]
        decide

theorem compareString_antisym : CompAntisym compareString := by
  intro a b
  show sign (lexCompareChars a.toList b.toList) =
    -(sign (lexCompareChars b.toList a.toList))
  rw [lexCompareChars_antisym, sign_neg_eq]

theorem liftNumComparer_antisym {c : Comparer JSNum} (hc : CompAntisym c) :
    CompAntisym (liftNumComparer c) := by
  intro a b
  cases a <;> cases b <;> first | rfl | exact hc _ _

theorem liftStrComparer_antisym {c : Comparer String} (hc : CompAntisym c) :
    CompAntisym (liftStrComparer c) := by
  intro a b
  cases a <;> cases b <;> first | rfl | exact hc _ _

theorem compareNumberOrString_antisym : CompAntisym compareNumberOrString :=
  conditionTypeFirstComparer_antisym isNumber
    (liftNumComparer_antisym compareNumber_antisym)
    (liftStrComparer_antisym compareString_antisym)

theorem mapComparer_antisym {TIn TOut : Type} {c : Comparer TOut}
    (m : TIn → TOut) (hc : CompAntisym c) : CompAntisym (mapComparer c m) := by
  intro a b
  exact hc (m a) (m b)

theorem arrayComparer_antisym {T : Type} {c : Comparer T}
    (hc : CompAntisym c) : CompAntisym (arrayComparer c) := by
  intro a
  induction a with
  | nil => intro b; cases b <;> exact compareNumber_antisym _ _
  | cons x xs ih =>
    intro b
    cases b with
    | nil => exact compareNumber_antisym _ _
    | cons y ys =>
      have hyx : c y x = -(c x y) := hc y x
      by_cases h0 : c x y = 0
      · have h1 : c y x = 0 := by rw [hyx, h0, neg_zero]
        rw [arrayComparer_cons, arrayComparer_cons, h0, h1]
        simpa using ih ys
      · have h1 : c y x ≠ 0 := by rw [hyx]; exact neg_ne_zero.mpr h0
        rw [arrayComparer_cons, arrayComparer_cons, if_pos h0, if_pos h1]
        exact hc x y

theorem nullableFirstComparer_antisym {T : Type} {c : Comparer (Nullable T)}
    (hc : ∀ x y : T, c (Nullable.val x) (Nullable.val y) =
      -(c (Nullable.val y) (Nullable.val x))) :
    CompAntisym (nullableFirstComparer c) := by
  intro a b
  cases a <;> cases b <;> first | rfl | exact hc _ _

theorem nullableLastComparer_antisym {T : Type} {c : Comparer (Nullable T)}
    (hc : ∀ x y : T, c (Nullable.val x) (Nullable.val y) =
      -(c (Nullable.val y) (Nullable.val x))) :
    CompAntisym (nullableLastComparer c) := by
  intro a b
  cases a <;> cases b <;> first | rfl | exact hc _ _

theorem groupComparer_antisym {TKey TValue : Type}
    {compareFns : TKey → Comparer TValue} {keyFn : TValue → TKey}
    {keyCompareFn : Comparer TKey} (hkc : CompAntisym keyCompareFn)
    (hsep : ∀ k1 k2, keyCompareFn k1 k2 = 0 → k1 = k2)
    (hcf : ∀ key, CompAntisym (compareFns key)) :
    CompAntisym (groupComparer compareFns keyFn keyCompareFn) := by
  intro a b
  rw [groupComparer_eq, groupComparer_eq]
  by_cases h : keyCompareFn (keyFn a) (keyFn b) = 0
  · have h2 : keyCompareFn (keyFn b) (keyFn a) = 0 := by
      rw [hkc (keyFn b) (keyFn a), h]
      ring
    have hk : keyFn a = keyFn b := hsep _ _ h
    rw [h, h2, if_neg (fun hh => hh rfl), if_neg (fun hh => hh rfl), hk]
    exact hcf (keyFn b) a b
  · have h2 : keyCompareFn (keyFn b) (keyFn a) ≠ 0 := by
      rw [hkc (keyFn b) (keyFn a)]
      simpa using h
    rw [if_pos h, if_pos h2, hkc (keyFn a) (keyFn b)]

theorem compareBoolean_antisym : CompAntisym compareBoolean := by
  intro a b
  cases a <;> cases b <;> rfl

theorem orderComparer_antisym {T : Type} [DecidableEq T] (s : List T) :
    CompAntisym (orderComparer s) := by
  intro a b
  exact sign_sub_antisym _ _

/-- C7 counterexample: `groupComparer` is not anti-symmetric merely because
its sub-comparers are.  With identity keys, the constant-zero key comparer
(anti-symmetric) and a table assigning the anti-symmetric `compareBoolean` to
key `true` and `compareEqual` to key `false`, comparing `true` with `false`
gives `1` while the swapped comparison gives `0`, so the results are not
negatives of each other. -/
theorem claim_C7_counterexample :
    (∀ k1 k2 : Bool, (fun _ _ : Bool => (0 : Int)) k1 k2 =
      -((fun _ _ : Bool => (0 : Int)) k2 k1)) ∧
    (∀ a b : Bool, compareBoolean a b = -(compareBoolean b a)) ∧
    (∀ a b : Bool, compareEqual a b = -(compareEqual b a)) ∧
    groupComparer (fun k : Bool => if k then compareBoolean else compareEqual)
      (fun v : Bool => v) (fun _ _ => 0) true false = 1 ∧
    groupComparer (fun k : Bool => if k then compareBoolean else compareEqual)
      (fun v : Bool => v) (fun _ _ => 0) false true = 0 := by
  decide

/-- C7, amended: anti-symmetry `compare(a, b) = -compare(b, a)` holds for the
primitive comparators and, under anti-symmetric sub-comparers, for every
combinator except `groupComparer`, which additionally needs its key comparer
to return zero only on equal keys (the counterexample shows anti-symmetric
sub-comparers alone do not suffice there). -/
theorem claim_C7_antisymmetry :
    CompAntisym compareFiniteNumber ∧
    CompAntisym compareNumber ∧
    CompAntisym compareBoolean ∧
    CompAntisym compareNanFirst ∧
    CompAntisym comparePositiveInfinityFirst ∧
    CompAntisym compareNegativeInfinityFirst ∧
    CompAntisym compareString ∧
    CompAntisym compareNumberOrString ∧
    CompAntisym compareStringNatural ∧
    CompAntisym compareDate ∧
    (∀ (T : Type) (inst : DecidableEq T) (s : List T),
      CompAntisym (@orderComparer T inst s)) ∧
    (∀ (T : Type) (inst : BEq T) (v : T),
      CompAntisym (@constFirstComparer T inst v)) ∧
    (∀ (T : Type) (p : T → Bool) (t f : Comparer T),
      CompAntisym t → CompAntisym f →
      CompAntisym (conditionFirstComparer p t f) ∧
      CompAntisym (conditionTypeFirstComparer p t f)) ∧
    (∀ (T : Type) (c : Comparer T), CompAntisym c →
      CompAntisym (invertComparer c)) ∧
    (∀ (T : Type) (l : List (Comparer T)), (∀ c ∈ l, CompAntisym c) →
      CompAntisym (chainComparers l)) ∧
    (∀ (TIn TOut : Type) (c : Comparer TOut) (m : TIn → TOut),
      CompAntisym c → CompAntisym (mapComparer c m)) ∧
    (∀ (T : Type) (c : Comparer T), CompAntisym c →
      CompAntisym (arrayComparer c)) ∧
    (∀ (T : Type) (c : Comparer (Nullable T)),
      (∀ x y : T, c (Nullable.val x) (Nullable.val y) =
        -(c (Nullable.val y) (Nullable.val x))) →
      CompAntisym (nullableFirstComparer c) ∧
      CompAntisym (nullableLastComparer c)) ∧
    (∀ T : Type, CompAntisym (compareNullableFirst (T := T))) ∧
    (∀ host : String → String → Int, (∀ a b, host a b = -(host b a)) →
      CompAntisym (collatorComparer host) ∧
      CompAntisym (localeComparer host)) ∧
    (∀ (TKey TValue : Type) (compareFns : TKey → Comparer TValue)
      (keyFn : TValue → TKey) (keyCompareFn : Comparer TKey),
      CompAntisym keyCompareFn →
      (∀ k1 k2, keyCompareFn k1 k2 = 0 → k1 = k2) →
      (∀ key, CompAntisym (compareFns key)) →
      CompAntisym (groupComparer compareFns keyFn keyCompareFn)) := by
  refine ⟨compareFiniteNumber_antisym, compareNumber_antisym,
    compareBoolean_antisym,
    conditionFirstComparer_antisym _ compareEqual_antisym compareEqual_antisym,
    constFirstComparer_antisym _, constFirstComparer_antisym _,
    compareString_antisym, compareNumberOrString_antisym,
    mapComparer_antisym _ (arrayComparer_antisym compareNumberOrString_antisym),
    mapComparer_antisym _ compareFiniteNumber_antisym,
    fun T inst s => orderComparer_antisym s,
    fun T inst v => constFirstComparer_antisym v,
    fun T p t f ht hf => ⟨conditionFirstComparer_antisym p ht hf,
      conditionTypeFirstComparer_antisym p ht hf⟩,
    fun T c hc => invertComparer_antisym hc,
    fun T l h => chainComparers_antisym h,
    fun TIn TOut c m hc => mapComparer_antisym m hc,
    fun T c hc => arrayComparer_antisym hc,
    fun T c hc => ⟨nullableFirstComparer_antisym hc,
      nullableLastComparer_antisym hc⟩,
    fun T => nullableFirstComparer_antisym (fun x y => rfl),
    fun host h => ⟨?_, ?_⟩,
    fun TKey TValue cf k kc hkc hsep hcf =>
      groupComparer_antisym hkc hsep hcf⟩
  · intro a b
    show sign (host a b) = -(sign (host b a))
    rw [h a b, sign_neg_eq]
  · intro a b
    show sign (host a b) = -(sign (host b a))
    rw [h a b, sign_neg_eq]

theorem claim_C7_witness :
    groupComparer (fun _ : Bool => compareBoolean) (fun v : Bool => v)
        compareBoolean true false =
      -(groupComparer (fun _ : Bool => compareBoolean) (fun v : Bool => v)
        compareBoolean false true) ∧
    arrayComparer compareBoolean [true] [false] =
      -(arrayComparer compareBoolean [false] [true]) := by
  obtain ⟨-, -, h3, -, -, -, -, -, -, -, -, -, -, -, -, -, h17, -, -, -, h21⟩ :=
    claim_C7_antisymmetry
  exact ⟨h21 Bool Bool (fun _ => compareBoolean) (fun v => v) compareBoolean
      h3 (by decide) (fun _ => h3) true false,
    h17 Bool compareBoolean h3 [true] [false]⟩

theorem digitRuns_cons (c : Char) (cs : List Char) :
    digitRuns (c :: cs) =
      match digitRuns cs with
      | (d, run) :: rest =>
        if c.isDigit == d then (d, c :: run) :: rest
        else (c.isDigit, [c]) :: (d, run) :: rest
      | [] => [(c.isDigit, [c])] := rfl

theorem digitRuns_cons_of_nil (c : Char) (cs : List Char)
    (h : digitRuns cs = []) : digitRuns (c :: cs) = [(c.isDigit, [c])] := by
  rw [digitRuns_cons, h]

theorem digitRuns_cons_of_cons (c : Char) (cs : List Char) (d : Bool)
    (run : List Char) (rest : List (Bool × List Char))
    (h : digitRuns cs = (d, run) :: rest) :
    digitRuns (c :: cs) =
      if c.isDigit == d then (d, c :: run) :: rest
      else (c.isDigit, [c]) :: (d, run) :: rest := by
  rw [digitRuns_cons, h]

theorem digitRuns_flatten :
    ∀ l : List Char, ((digitRuns l).map Prod.snd).flatten = l := by
  intro l
  induction l with
  | nil => rfl
  | cons c cs ih =>
    cases h : digitRuns cs with
    | nil =>
      rw [h] at ih
      simp only [List.map_nil, List.flatten_nil] at ih
      rw [digitRuns_cons_of_nil c cs h]
      simp [← ih]
    | cons s rest =>
      obtain ⟨d, run⟩ := s
      rw [h] at ih
      simp only [List.map_cons, List.flatten_cons] at ih
      rw [digitRuns_cons_of_cons c cs d run rest h]
      by_cases hd : (c.isDigit == d) = true
      · simp [hd, ih]
      · rw [Bool.not_eq_true] at hd
        simp [hd, ih]

theorem digitRuns_runs :
    ∀ l : List Char, ∀ r ∈ digitRuns l,
      r.2 ≠ [] ∧ ∀ ch ∈ r.2, ch.isDigit = r.1 := by
  intro l
  induction l with
  | nil => intro r hr; simp [digitRuns] at hr
  | cons c cs ih =>
    intro r hr
    cases h : digitRuns cs with
    | nil =>
      rw [digitRuns_cons_of_nil c cs h, List.mem_singleton] at hr
      subst hr
      refine ⟨by simp, ?_⟩
      intro ch hch
      rw [List.mem_singleton] at hch
      subst hch
      rfl
    | cons s rest =>
      obtain ⟨d, run⟩ := s
      rw [digitRuns_cons_of_cons c cs d run rest h] at hr
      by_cases hd : (c.isDigit == d) = true
      · rw [if_pos hd] at hr
        rcases List.mem_cons.mp hr with hr1 | hr2
        · subst hr1
          have hold := ih (d, run) (by rw [h]; exact List.mem_cons_self _ _)
          refine ⟨by simp, ?_⟩
          intro ch hch
          rcases List.mem_cons.mp hch with rfl | hch2
          · exact beq_iff_eq.mp hd
          · exact hold.2 ch hch2
        · exact ih r (by rw [h]; exact List.mem_cons_of_mem _ hr2)
      · rw [if_neg hd] at hr
        rcases List.mem_cons.mp hr with hr1 | hr2
        · subst hr1
          refine ⟨by simp, ?_⟩
          intro ch hch
          rw [List.mem_singleton] at hch
          subst hch
          rfl
        · exact ih r (by rw [h]; exact hr2)

theorem digitRuns_alternating :
    ∀ l : List Char, List.Chain' (fun r s => r.1 ≠ s.1) (digitRuns l) := by
  intro l
  induction l with
  | nil => simp [digitRuns]
  | cons c cs ih =>
    cases h : digitRuns cs with
    | nil => rw [digitRuns_cons_of_nil c cs h]; simp
    | cons s rest =>
      obtain ⟨d, run⟩ := s
      rw [h] at ih
      rw [digitRuns_cons_of_cons c cs d run rest h]
      by_cases hd : (c.isDigit == d) = true
      · rw [if_pos hd]
        cases rest with
        | nil => simp
        | cons t rts =>
          rw [List.chain'_cons] at ih ⊢
          exact ⟨ih.1, ih.2⟩
      · rw [if_neg hd]
        rw [List.chain'_cons]
        refine ⟨?_, ih⟩
        intro hcd
        exact hd (beq_iff_eq.mpr hcd)

/-- C8: `compareStringNatural` maps each string to the token sequence of its
maximal digit runs (as integer values, via `parseInt`) and non-digit runs (as
text) — the runs are non-empty, uniformly classified, alternating, and
concatenate back to the string — and compares the two token sequences
element-wise by `arrayComparer(compareNumberOrString)`, which orders numbers
before text tokens; under a stable sort `["a10", "a2", "a1"]` sorts to
`["a1", "a2", "a10"]`. -/
theorem claim_C8_natural_string_order :
    (∀ a b : String, compareStringNatural a b =
      arrayComparer compareNumberOrString (tokenizeNatural a)
        (tokenizeNatural b)) ∧
    (∀ s : String, tokenizeNatural s =
      (digitRuns s.toList).map (fun r =>
        if r.1 then NumOrStr.num (JSNum.fin (parseIntDigits r.2))
        else NumOrStr.str (String.mk r.2))) ∧
    (∀ s : String, ((digitRuns s.toList).map Prod.snd).flatten = s.toList) ∧
    (∀ s : String, ∀ r ∈ digitRuns s.toList,
      r.2 ≠ [] ∧ ∀ ch ∈ r.2, ch.isDigit = r.1) ∧
    (∀ s : String,
      List.Chain' (fun r t => r.1 ≠ t.1) (digitRuns s.toList)) ∧
    (∀ (x : JSNum) (s : String),
      compareNumberOrString (NumOrStr.num x) (NumOrStr.str s) = -1 ∧
      compareNumberOrString (NumOrStr.str s) (NumOrStr.num x) = 1) ∧
    (∀ x y : JSNum, compareNumberOrString (NumOrStr.num x) (NumOrStr.num y) =
      compareNumber x y) ∧
    (∀ s t : String, compareNumberOrString (NumOrStr.str s) (NumOrStr.str t) =
      compareString s t) ∧
    stableSort compareStringNatural ["a10", "a2", "a1"] =
      ["a1", "a2", "a10"] ∧
    tokenizeNatural "a10" = [NumOrStr.str "a", NumOrStr.num (JSNum.fin 10)] :=
  ⟨fun a b => rfl, fun s => rfl,
   fun s => digitRuns_flatten s.toList,
   fun s => digitRuns_runs s.toList,
   fun s => digitRuns_alternating s.toList,
   fun x s => ⟨rfl, rfl⟩, fun x y => rfl, fun s t => rfl,
   by decide, by decide⟩

theorem compareBoolean_refl : CompRefl compareBoolean := by
  intro a
  cases a <;> rfl

theorem orderComparer_refl {T : Type} [DecidableEq T] (s : List T) :
    CompRefl (orderComparer s) := by
  intro a
  exact sign_sub_self _

theorem lexCompareChars_refl : ∀ l : List Char, lexCompareChars l l = 0 := by
  intro l
  induction l with
  | nil => rfl
  | cons c cs ih =>
    show (if c.toNat < c.toNat then (-1 : Int)
        else if c.toNat < c.toNat then 1 else lexCompareChars cs cs) = 0
    rw [if_neg (Nat.lt_irrefl _), if_neg (Nat.lt_irrefl _), ih]

theorem compareString_refl : CompRefl compareString := by
  intro a
  show sign (lexCompareChars a.toList a.toList) = 0
  rw [lexCompareChars_refl]
  rfl

theorem compareNumberOrString_refl : CompRefl compareNumberOrString := by
  intro a
  cases a with
  | num x => exact compareNumber_refl x
  | str s => exact compareString_refl s

theorem mapComparer_refl {TIn TOut : Type} {c : Comparer TOut}
    (m : TIn → TOut) (hc : CompRefl c) : CompRefl (mapComparer c m) := by
  intro a
  exact hc (m a)

theorem arrayComparer_refl {T : Type} {c : Comparer T} (hc : CompRefl c) :
    ∀ l : List T, arrayComparer c l l = 0 := by
  intro l
  induction l with
  | nil => exact compareNumber_refl _
  | cons x xs ih =>
    rw [arrayComparer_cons, hc x, if_neg (fun hh => hh rfl)]
    exact ih

theorem nullableFirstComparer_refl {T : Type} {c : Comparer (Nullable T)}
    (hc : ∀ x : T, c (Nullable.val x) (Nullable.val x) = 0) :
    CompRefl (nullableFirstComparer c) := by
  intro a
  cases a with
  | null => rfl
  | undef => rfl
  | val x => exact hc x

theorem nullableLastComparer_refl {T : Type} {c : Comparer (Nullable T)}
    (hc : ∀ x : T, c (Nullable.val x) (Nullable.val x) = 0) :
    CompRefl (nullableLastComparer c) := by
  intro a
  cases a with
  | null => rfl
  | undef => rfl
  | val x => exact hc x

theorem groupComparer_refl {TKey TValue : Type}
    {compareFns : TKey → Comparer TValue} {keyFn : TValue → TKey}
    {keyCompareFn : Comparer TKey} (hkc : CompRefl keyCompareFn)
    (hcf : ∀ key, CompRefl (compareFns key)) :
    CompRefl (groupComparer compareFns keyFn keyCompareFn) := by
  intro a
  rw [groupComparer_eq, hkc (keyFn a), if_neg (fun hh => hh rfl)]
  exact hcf (keyFn a) a

/-- C10: every embedded comparator is reflexive — `compare(a, a) = 0` — for
the primitives (including `compareNumber` on NaN and the infinities,
`compareBoolean`, `orderComparer` for any ordering) outright, and for every
combinator whenever its sub-comparers are reflexive. -/
theorem claim_C10_reflexivity :
    CompRefl compareFiniteNumber ∧
    CompRefl compareNumber ∧
    CompRefl compareBoolean ∧
    CompRefl compareNanFirst ∧
    CompRefl comparePositiveInfinityFirst ∧
    CompRefl compareNegativeInfinityFirst ∧
    CompRefl compareString ∧
    CompRefl compareNumberOrString ∧
    CompRefl compareStringNatural ∧
    CompRefl compareDate ∧
    compareNumber JSNum.nan JSNum.nan = 0 ∧
    compareNumber JSNum.negInf JSNum.negInf = 0 ∧
    compareNumber JSNum.posInf JSNum.posInf = 0 ∧
    (∀ (T : Type) (inst : DecidableEq T) (s : List T),
      CompRefl (@orderComparer T inst s)) ∧
    (∀ (T : Type) (inst : BEq T) (v : T),
      CompRefl (@constFirstComparer T inst v)) ∧
    (∀ (T : Type) (p : T → Bool) (t f : Comparer T),
      CompRefl t → CompRefl f →
      CompRefl (conditionFirstComparer p t f) ∧
      CompRefl (conditionTypeFirstComparer p t f)) ∧
    (∀ (T : Type) (c : Comparer T), CompRefl c →
      CompRefl (invertComparer c)) ∧
    (∀ (T : Type) (l : List (Comparer T)), (∀ c ∈ l, CompRefl c) →
      CompRefl (chainComparers l)) ∧
    (∀ (TIn TOut : Type) (c : Comparer TOut) (m : TIn → TOut),
      CompRefl c → CompRefl (mapComparer c m)) ∧
    (∀ (T : Type) (c : Comparer T), CompRefl c →
      CompRefl (arrayComparer c)) ∧
    (∀ (T : Type) (c : Comparer (Nullable T)),
      (∀ x : T, c (Nullable.val x) (Nullable.val x) = 0) →
      CompRefl (nullableFirstComparer c) ∧
      CompRefl (nullableLastComparer c)) ∧
    (∀ T : Type, CompRefl (compareNullableFirst (T := T))) ∧
    (∀ host : String → String → Int, (∀ a, host a a = 0) →
      CompRefl (collatorComparer host) ∧ CompRefl (localeComparer host)) ∧
    (∀ (TKey TValue : Type) (compareFns : TKey → Comparer TValue)
      (keyFn : TValue → TKey) (keyCompareFn : Comparer TKey),
      CompRefl keyCompareFn → (∀ key, CompRefl (compareFns key)) →
      CompRefl (groupComparer compareFns keyFn keyCompareFn)) := by
  refine ⟨compareFiniteNumber_refl, compareNumber_refl, compareBoolean_refl,
    conditionFirstComparer_refl _ compareEqual_refl compareEqual_refl,
    constFirstComparer_refl _, constFirstComparer_refl _,
    compareString_refl, compareNumberOrString_refl,
    fun s => arrayComparer_refl compareNumberOrString_refl _,
    mapComparer_refl _ compareFiniteNumber_refl,
    compareNumber_refl JSNum.nan, compareNumber_refl JSNum.negInf,
    compareNumber_refl JSNum.posInf,
    fun T inst s => orderComparer_refl s,
    fun T inst v => constFirstComparer_refl v,
    fun T p t f ht hf => ⟨conditionFirstComparer_refl p ht hf,
      conditionTypeFirstComparer_refl p ht hf⟩,
    fun T c hc => invertComparer_refl hc,
    fun T l h => chainComparers_refl h,
    fun TIn TOut c m hc => mapComparer_refl m hc,
    fun T c hc => arrayComparer_refl hc,
    fun T c hc => ⟨nullableFirstComparer_refl hc, nullableLastComparer_refl hc⟩,
    fun T => nullableFirstComparer_refl (fun x => rfl),
    fun host h => ⟨fun a => ?_, fun a => ?_⟩,
    fun TKey TValue cf k kc hkc hcf => groupComparer_refl hkc hcf⟩
  · show sign (host a a) = 0
    rw [h a]
    rfl
  · show sign (host a a) = 0
    rw [h a]
    rfl

theorem claim_C10_witness :
    arrayComparer compareNumber [JSNum.nan, JSNum.fin 3]
      [JSNum.nan, JSNum.fin 3] = 0 ∧
    orderComparer ["x", "y"] "x" "x" = 0 := by
  obtain ⟨-, -, -, -, -, -, -, -, -, -, -, -, -, h14, -, -, -, -, -, h20, -⟩ :=
    claim_C10_reflexivity
  exact ⟨h20 JSNum compareNumber compareNumber_refl [JSNum.nan, JSNum.fin 3],
    h14 String instDecidableEqString ["x", "y"] "x"⟩
